import Mathlib

/-!
Verification of the core workflow of the chrono-map-photo application
(location resolution, prompt composition, image generation with retry,
and the orchestrating state machine), shallowly embedded from
`src/services/geminiService.ts`, `src/App.tsx` and
`src/components/Sidebar.tsx`.

Conventions of the embedding:
* TypeScript strings are Lean `String`s; template literals become explicit
  `++` chains transcribing the literal text of the source.
* Thrown JavaScript errors are values of `JsError` (a `message` that may be
  absent and an optional numeric `status`); fallible functions return
  `Except JsError _`.
* Coordinates interpolated into prompts are taken as already-rendered
  strings, since no claim depends on number formatting of latitudes.
* `async`/`await` sequencing is direct sequencing; timers (`wait`) are
  recorded as a list of delays instead of being slept.
-/

/-- The character `{`, written via its code point so it can be used both in
patterns over response text and in the regex model below. -/
def braceOpen : Char := Char.ofNat 123

/-- The character `}`, written via its code point. -/
def braceClose : Char := Char.ofNat 125

/-- Decidable substring occurrence scan over character lists: true when
`sub` occurs contiguously in the scanned list.  Models JavaScript
`String.prototype.includes`. -/
def includesSub (sub : List Char) : List Char → Bool
  | [] => sub.isEmpty
  | c :: rest => sub.isPrefixOf (c :: rest) || includesSub sub rest

/-- `s.includes(pat)` from JavaScript. -/
def includesStr (s pat : String) : Bool := includesSub pat.data s.data

/-- `p` occurs contiguously inside `s` (specification-level counterpart of
`includesStr`). -/
def SubstrOf (p s : String) : Prop := ∃ a b : String, s = a ++ p ++ b

/-- Character-class test for `[0-9]`, via code points 48–57. -/
def isDigitChar (c : Char) : Bool := 48 ≤ c.toNat && c.toNat ≤ 57

/-- Character-class test for `[0-9.]` used by the retry-delay regex. -/
def digitDotChar (c : Char) : Bool := isDigitChar c || c = '.'

/-- JavaScript whitespace skipped by `parseInt` (space, tab, LF, VT, FF,
CR). -/
def jsSpaceChar (c : Char) : Bool :=
  c.toNat = 32 || c.toNat = 9 || c.toNat = 10 || c.toNat = 11 ||
  c.toNat = 13 || c.toNat = 12

/-- Decimal value of a list of digit characters, most significant first. -/
def digitsToNat (ds : List Char) : Nat :=
  ds.foldl (fun acc c => acc * 10 + (c.toNat - 48)) 0

/-- JavaScript `parseInt(s)` restricted to decimal inputs: skip leading
whitespace, read an optional sign, then the longest run of decimal digits,
ignoring any trailing text; `none` models `NaN` (no digits found).  The
automatic hexadecimal `0x` prefix of `parseInt` and the precision loss of
IEEE doubles on >15-digit inputs are not modelled; the year strings the
application produces are short decimal numerals. -/
def parseIntJS (s : String) : Option Int :=
  let cs := s.data.dropWhile jsSpaceChar
  let signRest : Int × List Char :=
    match cs with
    | '-' :: r => (-1, r)
    | '+' :: r => (1, r)
    | _ => (1, cs)
  let ds := signRest.2.takeWhile isDigitChar
  if ds.isEmpty then none
  else some (signRest.1 * (digitsToNat ds : Int))

/-- JavaScript `parseFloat` restricted to captures of `[0-9.]+` (the only
inputs the retry regex can produce): longest leading digit run, then an
optional `.` and a second digit run; the exact value is
`intPart + fracNum / 10 ^ fracDigits`, returned as that triple.  `none`
models `NaN` (no digit before the end or the first `.`). -/
def parseFloatDec (cs : List Char) : Option (Nat × Nat × Nat) :=
  let ds := cs.takeWhile isDigitChar
  let rest := cs.dropWhile isDigitChar
  match rest with
  | c :: rest2 =>
    if c = '.' then
      let fs := rest2.takeWhile isDigitChar
      if ds.isEmpty && fs.isEmpty then none
      else some (digitsToNat ds, digitsToNat fs, fs.length)
    else if ds.isEmpty then none else some (digitsToNat ds, 0, 0)
  | [] => if ds.isEmpty then none else some (digitsToNat ds, 0, 0)

/-- Exact rational value of a `parseFloatDec` result. -/
def decValue (v : Nat × Nat × Nat) : ℚ := v.1 + (v.2.1 : ℚ) / (10 : ℚ) ^ v.2.2

/-- `Math.ceil` of a `parseFloatDec` result, computed exactly on the
decimal representation (the fractional part is `< 1`, so the ceiling is
the integer part, bumped when the fraction is nonzero). -/
def ceilDec (v : Nat × Nat × Nat) : Nat := if v.2.1 = 0 then v.1 else v.1 + 1

/-- Matching attempted at one position for the tail of the regex
`/retry in ([0-9.]+)s/`, given the text that follows `"retry in "`: the
greedy capture `[0-9.]+` is the maximal digit-dot run, and since `s`
is outside that character class, backtracking can never shorten it — the
position matches exactly when the run is nonempty and is followed by
`s`. -/
def captureAfter (cs : List Char) : Option (List Char) :=
  let run := cs.takeWhile digitDotChar
  if run.isEmpty then none
  else
    match cs.drop run.length with
    | 's' :: _ => some run
    | _ => none

/-- Leftmost-match semantics of `msg.match(/retry in ([0-9.]+)s/)`,
returning the first capture group: scan left to right for a position where
the literal `"retry in "` matches and the tail matches; otherwise advance
one character. -/
def findRetryCapture : List Char → Option (List Char)
  | [] => none
  | c :: rest =>
    if ("retry in ".data).isPrefixOf (c :: rest) then
      match captureAfter ((c :: rest).drop 9) with
      | some cap => some cap
      | none => findRetryCapture rest
    else findRetryCapture rest

/-- Returns the prefix of the list extending through its last `}`
character, or `none` when the list has no `}`. -/
def lastCloseSplit : List Char → Option (List Char)
  | [] => none
  | c :: rest =>
    match lastCloseSplit rest with
    | some p => some (c :: p)
    | none => if c = braceClose then some [c] else none

/-- Leftmost-greedy semantics of `text.match(/\x7b[\s\S]*\x7d/)` from
`analyzeLocation`: at the first `{` that is followed by some `}`, the
greedy `[\s\S]*` extends the match through the last `}` of the text; when
a position fails, scanning resumes one character later. -/
def braceMatch : List Char → Option (List Char)
  | [] => none
  | c :: rest =>
    if c = braceOpen then
      match lastCloseSplit rest with
      | some p => some (c :: p)
      | none => braceMatch rest
    else braceMatch rest

/-! ## Data model (`src/types.ts`) -/

/-- A latitude/longitude pair (`Coordinates` in `types.ts`); the floating
point components are modelled as exact rationals. -/
structure Coordinates where
  lat : ℚ
  lng : ℚ
deriving DecidableEq

/-- `PointOfInterest` from `types.ts`. -/
structure PointOfInterest where
  name : String
  lat : ℚ
  lng : ℚ
deriving DecidableEq

/-- The nested `weather` record of `LocationContext`. -/
structure WeatherInfo where
  temp : String
  condition : String
deriving DecidableEq

/-- `LocationContext` from `types.ts`; the optional TypeScript fields
`isVague?` and `nearbyPOIs?` become `Option`s (`none` = absent). -/
structure LocationContext where
  name : String
  description : String
  weather : WeatherInfo
  clothingRecommendation : String
  isVague : Option Bool
  nearbyPOIs : Option (List PointOfInterest)
deriving DecidableEq

/-- The `TimeEra` enum from `types.ts`. -/
inductive TimeEra
  | past
  | present
  | future
deriving DecidableEq

/-- The string value of each `TimeEra` enum member (used by
`generateTravelPhoto` via `era as string`). -/
def eraString : TimeEra → String
  | .past => "Past (Ancient/Historical)"
  | .present => "Present Day"
  | .future => "Future (Sci-Fi/Advanced)"

/-- The `AppStatus` union from `types.ts`. -/
inductive AppStatus
  | idle
  | analyzing_location
  | ready_to_generate
  | generating_image
  | complete
  | error
deriving DecidableEq

/-- A thrown JavaScript error as the workflow observes it: an optional
`message` string and an optional numeric `status` property. -/
structure JsError where
  message : Option String
  status : Option Nat
deriving DecidableEq

/-! ## Geocoding/context resolver (`analyzeLocation`,
`src/services/geminiService.ts` lines 25–86) -/

/-- The degraded record returned by `analyzeLocation`'s `catch` block. -/
def locationFallback : LocationContext :=
  { name := "Unknown Location"
    description := "Could not retrieve exact location details."
    weather := { temp := "--", condition := "Unknown" }
    clothingRecommendation := "Casual wear"
    isVague := some false
    nearbyPOIs := none }

/-- The body of `analyzeLocation`'s `try` block.  The external
`ai.models.generateContent` call is abstracted as its outcome
`serviceResult` (an error, or `response.text`, which may be absent);
`JSON.parse` composed with the unchecked `as LocationContext` cast is
abstracted as the parameter `jsonParse` (`none` = the parse threw; the
thrown `SyntaxError`'s message is irrelevant to the workflow and modelled
as absent). -/
def analyzeAttempt (jsonParse : String → Option LocationContext)
    (serviceResult : Except JsError (Option String)) :
    Except JsError LocationContext :=
  match serviceResult with
  | .error e => .error e
  | .ok textOpt =>
    let text := match textOpt with | some t => t | none => ""
    if text = "" then .error { message := some "No response from AI", status := none }
    else
      match braceMatch text.data with
      | some m =>
        match jsonParse (String.mk m) with
        | some ctx => .ok ctx
        | none => .error { message := none, status := none }
      | none => .error { message := some "Failed to parse location JSON", status := none }

/-- `analyzeLocation(lat, lng, apiKey)`: the credential presence check
happens before the `try`, so an empty key propagates as a thrown error;
every failure inside the `try` is converted by the `catch` block into
`locationFallback`.  The coordinates only feed the prompt text of the
abstracted external call and are unused by the control flow. -/
def analyzeLocation (jsonParse : String → Option LocationContext)
    (lat lng : String) (apiKey : String)
    (serviceResult : Except JsError (Option String)) :
    Except JsError LocationContext :=
  if apiKey = "" then
    .error { message := some "API Key is required", status := none }
  else
    let _ := (lat, lng)
    match analyzeAttempt jsonParse serviceResult with
    | .ok ctx => .ok ctx
    | .error _ => .ok locationFallback

/-! ## Prompt composer (`generateTravelPhoto`,
`src/services/geminiService.ts` lines 109–161) -/

/-- The `timeDescription` variable of `generateTravelPhoto`: the era
string, extended — when a nonempty `year` is supplied — with either a
B.C. descriptor (the year parses to a negative integer; `Math.abs` of the
parse is rendered) or the raw year string. -/
def timeDescription (era : TimeEra) (year : Option String) : String :=
  match year with
  | none => eraString era
  | some y =>
    if y = "" then eraString era
    else
      match parseIntJS y with
      | some n =>
        if n < 0 then
          eraString era ++ " (Specifically " ++ toString n.natAbs ++ " B.C.)"
        else
          eraString era ++ " (Specifically the year " ++ y ++ ")"
      | none => eraString era ++ " (Specifically the year " ++ y ++ ")"

/-- The `historicInstruction` variable of `generateTravelPhoto`,
transcribing the two template literals of the source (B.C. branch and
modern branch); empty when no year is supplied. -/
def historicInstruction (lat lng : String) (year : Option String) : String :=
  match year with
  | none => ""
  | some y =>
    if y = "" then ""
    else
      match parseIntJS y with
      | some n =>
        if n < 0 then
          "\n            CRITICAL HISTORICAL ACCURACY (B.C. ERA):\n            The year is "
          ++ toString n.natAbs
          ++ " B.C. (Before Christ/Common Era).\n            - MODERN CITIES DO NOT EXIST. Do NOT show modern buildings, roads, or ruins.\n            - Show the NATURAL LANDSCAPE (pristine forests, rivers, deserts, terrain) exactly as it would have looked at these coordinates ("
          ++ lat ++ ", " ++ lng ++ ") in " ++ toString n.natAbs
          ++ " B.C.\n            - If early human settlements (Neolithic, Bronze Age, Indigenous tribes) were historically present in this specific region at that time, depict them accurately (huts, primitive tools, campfires).\n            - Clothing MUST be primitive and accurate to the region and era (e.g., animal skins, simple woven tunics).\n          "
        else
          "\n            HISTORICAL ACCURACY: The year is " ++ y
          ++ ".\n            - Ensure architecture, street signs, technology, and background details match this year.\n            - If Future, use grounded sci-fi aesthetics suitable for " ++ y
          ++ ".\n          "
      | none =>
        "\n            HISTORICAL ACCURACY: The year is " ++ y
        ++ ".\n            - Ensure architecture, street signs, technology, and background details match this year.\n            - If Future, use grounded sci-fi aesthetics suitable for " ++ y
        ++ ".\n          "

/-- The default text substituted for a missing or empty custom prompt
(`customPrompt || "No specific scene instructions provided."`). -/
def customPromptOrDefault (customPrompt : Option String) : String :=
  match customPrompt with
  | some c => if c = "" then "No specific scene instructions provided." else c
  | none => "No specific scene instructions provided."

/-- The `textPrompt` template literal of `generateTravelPhoto`: the full
composed prompt sent to the image model, as a function of the parameters
that feed it (the pure prompt-composition core of the function). -/
def textPrompt (lat lng locationName : String) (era : TimeEra)
    (weatherCondition : String) (year : Option String)
    (customPrompt : Option String) (style variation : String) : String :=
  "\n      Create a highly realistic and historically accurate travel photo.\n\n      CONTEXT:\n      - Location: "
  ++ locationName ++ " (Lat: " ++ lat ++ ", Lng: " ++ lng
  ++ ").\n      - Era/Year: " ++ timeDescription era year
  ++ ".\n      - Weather: " ++ weatherCondition
  ++ ".\n      - Shot Variation: " ++ variation
  ++ " (Ensure this image has a distinct composition).\n\n      USER INSTRUCTIONS:\n      \""
  ++ customPromptOrDefault customPrompt
  ++ "\"\n\n      REQUIREMENTS:\n      1. " ++ historicInstruction lat lng year
  ++ "\n      \n      2. SUBJECT: Insert the person from the reference image.\n         - Maintain facial identity strictly.\n         - CHANGE CLOTHING: The subject MUST wear clothing accurate to "
  ++ timeDescription era year ++ " and " ++ weatherCondition
  ++ ".\n         - Pose: Natural travel pose.\n\n      3. AESTHETICS:\n         - Visual Style: "
  ++ style
  ++ ". \n         - Photorealistic, 8k resolution, cinematic lighting.\n         - No text, borders, or frames.\n    "

/-! ## Image generation client retry policy (`makeRequest`,
`src/services/geminiService.ts` lines 163–198) -/

/-- The rate-limit classification of `makeRequest`'s catch block:
`error.message?.includes('429') || error.status === 429`. -/
def isRateLimitErr (e : JsError) : Bool :=
  (match e.message with
   | some m => includesStr m "429"
   | none => false) || e.status == some 429

/-- The retry delay computed by the catch block for a given retry count
and error message: default exponential backoff `3000 * 2 ^ retryCount`,
overridden by `ceil(seconds) * 1000 + 2000` when the message matches
`retry in <seconds>s`; `none` models the `NaN` delay arising when the
captured text (e.g. `".."`) fails to parse as a number (a comparison
against `NaN` is false, so `none` never retries). -/
def computeDelay (retryCount : Nat) (message : Option String) : Option Nat :=
  let dflt := 3000 * 2 ^ retryCount
  match message with
  | none => some dflt
  | some msg =>
    match findRetryCapture msg.data with
    | none => some dflt
    | some cap =>
      match parseFloatDec cap with
      | some v => some (ceilDec v * 1000 + 2000)
      | none => none

/-- `makeRequest(retryCount)`: the external image call is abstracted as
`script`, giving the outcome of each attempt (indexed by `retryCount`).
Returns the final outcome together with the list of delays that were
awaited before retries — so `result.2.length` is the number of retries
performed.  A rate-limited failure with `retryCount < 2` and a computed
delay under 70000 ms retries after that delay; every other failure is
rethrown. -/
def makeRequest {α : Type} (script : Nat → Except JsError α)
    (retryCount : Nat) : Except JsError α × List Nat :=
  match script retryCount with
  | .ok r => (.ok r, [])
  | .error e =>
    if isRateLimitErr e then
      if _h : retryCount < 2 then
        match computeDelay retryCount e.message with
        | some delay =>
          if delay < 70000 then
            let res := makeRequest script (retryCount + 1)
            (res.1, delay :: res.2)
          else (.error e, [])
        | none => (.error e, [])
      else (.error e, [])
    else (.error e, [])
termination_by 2 - retryCount
decreasing_by omega

/-! ## Workflow orchestrator (`src/App.tsx`) and disambiguation policy
(`src/components/Sidebar.tsx`) -/

/-- The slice of the App component state that the orchestrator owns. -/
structure AppState where
  apiKey : String
  apiKeyReady : Bool
  selectedLocation : Option Coordinates
  locationInfo : Option LocationContext
  status : AppStatus
  generatedImages : List String
  errorMessage : Option String
deriving DecidableEq

/-- `error.message || JSON.stringify(error)` from `handleError`:
`JSON.stringify` of an `Error` yields `"\x7b\x7d"` (its standard
properties are non-enumerable), which is what this model substitutes when
the message is absent or empty. -/
def errMsgOf (e : JsError) : String :=
  match e.message with
  | some m => if m = "" then "\x7b\x7d" else m
  | none => "\x7b\x7d"

/-- `handleError`'s rate-limit message classification:
`msg.includes("429") || msg.includes("Quota") || msg.includes("RESOURCE_EXHAUSTED")`. -/
def isQuotaMsg (m : String) : Bool :=
  includesStr m "429" || includesStr m "Quota" || includesStr m "RESOURCE_EXHAUSTED"

/-- `handleError`'s invalid-credential message classification:
`msg.includes("400") || msg.includes("expired") || msg.includes("API_KEY_INVALID") || msg.includes("not found")`. -/
def isCredMsg (m : String) : Bool :=
  includesStr m "400" || includesStr m "expired" ||
  includesStr m "API_KEY_INVALID" || includesStr m "not found"

/-- The user-facing message built in `handleError`'s rate-limit branch,
echoing a server-suggested wait time when the message carries one
(`Math.ceil(parseFloat(...))` of a non-numeric capture renders as
`NaN`). -/
def quotaDisplayMsg (m : String) : String :=
  match findRetryCapture m.data with
  | some cap =>
    "Quota/Rate limit exceeded." ++ " Please wait " ++
      (match parseFloatDec cap with
       | some v => toString (ceilDec v)
       | none => "NaN") ++ " seconds before trying again."
  | none => "Quota/Rate limit exceeded." ++ " Please try again later or check your billing."

/-- `clearApiKey` from `App.tsx`: wipes the credential and marks it not
ready (the `localStorage` removal and AI-Studio key selector are external
effects outside this state). -/
def clearApiKey (s : AppState) : AppState :=
  { s with apiKey := "", apiKeyReady := false }

/-- `handleError(error, defaultMsg)` from `App.tsx` lines 77–99: sets
status to `error`, then classifies the message to choose the user-facing
text; the invalid-credential branch additionally clears the stored
credential. -/
def handleError (e : JsError) (defaultMsg : String) (s : AppState) : AppState :=
  let s1 := { s with status := AppStatus.error }
  let msg := errMsgOf e
  if isQuotaMsg msg then
    { s1 with errorMessage := some (quotaDisplayMsg msg) }
  else if isCredMsg msg then
    clearApiKey { s1 with errorMessage := some "Invalid API Key. Please update your key." }
  else
    { s1 with errorMessage := some (defaultMsg ++ ": " ++
        (match e.message with
         | some m => if m = "" then "Unknown error" else m
         | none => "Unknown error")) }

/-- The fixed list of shot variations iterated by `handleGenerate`. -/
def variationLabels : List String :=
  ["Wide Angle Shot (Establishing Context)", "Medium Shot (Character Interaction)"]

/-- The `for (const variation of variations)` loop of `handleGenerate`:
each generation call is abstracted as `gen` (variation label ↦ outcome,
the other arguments being fixed for the run).  Returns the labels actually
passed to generation calls in order, the accumulated image list
(each success appended via `setGeneratedImages(prev => [...prev, url])`),
and the first terminal error if one occurred (which aborts the loop). -/
def genLoop (gen : String → Except JsError String) (acc : List String) :
    List String → List String × List String × Option JsError
  | [] => ([], acc, none)
  | v :: vs =>
    match gen v with
    | .ok url =>
      let r := genLoop gen (acc ++ [url]) vs
      (v :: r.1, r.2.1, r.2.2)
    | .error e => ([v], acc, some e)

/-- `handleGenerate` from `App.tsx` lines 123–162: a no-op without a
selected location and resolved context; otherwise clears the error and the
image list, runs the two variations sequentially, and ends in `complete`
(all succeeded) or in `handleError` (first failure).  The reference photo
is abstracted as already base64-converted inside `gen`.  Returns the new
state together with the list of variation labels sent to generation
calls. -/
def handleGenerate (gen : String → Except JsError String) (s : AppState) :
    AppState × List String :=
  if s.selectedLocation.isNone || s.locationInfo.isNone then (s, [])
  else
    let s1 := { s with status := AppStatus.generating_image,
                       errorMessage := none, generatedImages := [] }
    let r := genLoop gen [] variationLabels
    match r.2.2 with
    | none => ({ s1 with generatedImages := r.2.1, status := AppStatus.complete }, r.1)
    | some e => (handleError e "Image generation failed" { s1 with generatedImages := r.2.1 }, r.1)

/-- The `isVagueState` expression of `Sidebar.tsx` line 74:
`locationInfo?.isVague && !overrideVague && generatedImages.length === 0`,
as a boolean (an absent `locationInfo` or `isVague` field is falsy). -/
def isVagueState (locationInfo : Option LocationContext)
    (overrideVague : Bool) (generatedImages : List String) : Bool :=
  (match locationInfo with
   | some info => info.isVague.getD false
   | none => false) && !overrideVague && generatedImages.length == 0

/-- A concrete orchestrator state with a selected location, a resolved
context and a ready credential (used to exercise `handleGenerate`). -/
def sampleReadyState : AppState :=
  { apiKey := "stored-key"
    apiKeyReady := true
    selectedLocation := some { lat := 48, lng := 2 }
    locationInfo := some locationFallback
    status := AppStatus.ready_to_generate
    generatedImages := []
    errorMessage := none }

/-- The facts asserted about the post-state of a generation run that ended
in `handleError`: status is `error`, the message slot is populated, the
images accumulated before the failure are retained, the location state is
untouched, and the credential state is cleared exactly when the message
classifies as an invalid-credential error (and is untouched otherwise). -/
def errorRunFrame (gen : String → Except JsError String) (s : AppState)
    (e : JsError) (imgs : List String) : Prop :=
  (handleGenerate gen s).1.status = AppStatus.error ∧
  ((handleGenerate gen s).1.errorMessage).isSome = true ∧
  (handleGenerate gen s).1.generatedImages = imgs ∧
  (handleGenerate gen s).1.selectedLocation = s.selectedLocation ∧
  (handleGenerate gen s).1.locationInfo = s.locationInfo ∧
  ((isQuotaMsg (errMsgOf e) = false ∧ isCredMsg (errMsgOf e) = true) →
    (handleGenerate gen s).1.apiKey = "" ∧
    (handleGenerate gen s).1.apiKeyReady = false) ∧
  (¬(isQuotaMsg (errMsgOf e) = false ∧ isCredMsg (errMsgOf e) = true) →
    (handleGenerate gen s).1.apiKey = s.apiKey ∧
    (handleGenerate gen s).1.apiKeyReady = s.apiKeyReady)

/-! ## Substring toolkit -/

/-- Introduce a substring occurrence from an explicit decomposition in
right-associated form. -/
theorem substrOf_intro (p s a b : String) (h : s = a ++ (p ++ b)) :
    SubstrOf p s :=
  ⟨a, b, by rw [String.append_assoc]; exact h⟩

/-- Every string occurs in itself. -/
theorem substrOf_refl (p : String) : SubstrOf p p :=
  ⟨"", "", by rw [String.empty_append, String.append_empty]⟩

/-- Occurrence is preserved by prepending text. -/
theorem substrOf_appendLeft (a : String) {p s : String} (h : SubstrOf p s) :
    SubstrOf p (a ++ s) := by
  obtain ⟨x, y, hx⟩ := h
  exact ⟨a ++ x, y, by rw [hx]; rw [String.append_assoc, String.append_assoc,
    String.append_assoc]⟩

/-- Occurrence is preserved by appending text. -/
theorem substrOf_appendRight (b : String) {p s : String} (h : SubstrOf p s) :
    SubstrOf p (s ++ b) := by
  obtain ⟨x, y, hx⟩ := h
  exact ⟨x, y ++ b, by rw [hx]; rw [String.append_assoc, String.append_assoc,
    ← String.append_assoc]⟩

/-! ## C4: the disambiguation-policy vague-state predicate -/

/-- C4: the vague state holds iff `isVague` is true, the override is off
and no image has been generated; flipping any one of the three conditions
(setting `isVague` to false, turning the override on, or having a
generated image) classifies the state as not-vague. -/
theorem c4_vague_state_characterization :
    (∀ (info : LocationContext) (ov : Bool) (imgs : List String),
      isVagueState (some info) ov imgs = true ↔
        (info.isVague = some true ∧ ov = false ∧ imgs = [])) ∧
    (∀ (info : LocationContext) (ov : Bool) (imgs : List String),
      isVagueState (some { info with isVague := some false }) ov imgs = false) ∧
    (∀ (info : LocationContext) (imgs : List String),
      isVagueState (some info) true imgs = false) ∧
    (∀ (info : LocationContext) (ov : Bool) (img : String) (imgs : List String),
      isVagueState (some info) ov (img :: imgs) = false) := by
  refine ⟨?_, ?_, ?_, ?_⟩
  · intro info ov imgs
    cases hv : info.isVague with
    | none => simp [isVagueState, hv]
    | some b =>
      cases b <;> cases ov <;>
        simp [isVagueState, hv, List.length_eq_zero]
  · intro info ov imgs
    simp [isVagueState]
  · intro info imgs
    simp [isVagueState]
  · intro info ov img imgs
    simp [isVagueState]

/-! ## C9: determinism of the prompt composer -/

/-- C9: the prompt composer is a pure function — two invocations with
identical arguments (coordinates, location name, era, weather, year,
custom prompt, style, variation label) produce identical composed text. -/
theorem c9_compose_deterministic
    (lat₁ lat₂ lng₁ lng₂ name₁ name₂ : String) (era₁ era₂ : TimeEra)
    (w₁ w₂ : String) (y₁ y₂ c₁ c₂ : Option String) (st₁ st₂ v₁ v₂ : String)
    (h1 : lat₁ = lat₂) (h2 : lng₁ = lng₂) (h3 : name₁ = name₂)
    (h4 : era₁ = era₂) (h5 : w₁ = w₂) (h6 : y₁ = y₂) (h7 : c₁ = c₂)
    (h8 : st₁ = st₂) (h9 : v₁ = v₂) :
    textPrompt lat₁ lng₁ name₁ era₁ w₁ y₁ c₁ st₁ v₁ =
      textPrompt lat₂ lng₂ name₂ era₂ w₂ y₂ c₂ st₂ v₂ := by
  subst h1 h2 h3 h4 h5 h6 h7 h8 h9
  rfl

/-- Witness for `c9_compose_deterministic` at a concrete argument list. -/
theorem c9_compose_deterministic_witness :
    ("48.8584" : String) = "48.8584" ∧
    textPrompt "48.8584" "2.2945" "Eiffel Tower" TimeEra.past "Sunny"
        (some "1889") none "Cinematic" "Wide Angle Shot (Establishing Context)" =
      textPrompt "48.8584" "2.2945" "Eiffel Tower" TimeEra.past "Sunny"
        (some "1889") none "Cinematic" "Wide Angle Shot (Establishing Context)" :=
  ⟨rfl, c9_compose_deterministic _ _ _ _ _ _ _ _ _ _ _ _ _ _ _ _ _ _
    rfl rfl rfl rfl rfl rfl rfl rfl rfl⟩

/-! ## C5 and C10: resolver fallback and credential check -/

/-- Any failing attempt is masked into the fallback record when the
credential is nonempty. -/
theorem analyzeLocation_of_attempt_error
    (jsonParse : String → Option LocationContext) (lat lng key : String)
    (svc : Except JsError (Option String)) (hk : key ≠ "") (e : JsError)
    (h : analyzeAttempt jsonParse svc = .error e) :
    analyzeLocation jsonParse lat lng key svc = .ok locationFallback := by
  simp [analyzeLocation, hk, h]

/-- C5: with a nonempty credential, every resolver failure mode — the
external call throwing, an absent or empty response text, a response with
no brace-delimited object, or `JSON.parse` throwing on the extracted
span — yields the fixed fallback `LocationContext` instead of a
propagated error. -/
theorem c5_resolver_fallback
    (jsonParse : String → Option LocationContext) (lat lng key : String)
    (hk : key ≠ "") :
    (∀ e : JsError,
      analyzeLocation jsonParse lat lng key (.error e) = .ok locationFallback) ∧
    (analyzeLocation jsonParse lat lng key (.ok none) = .ok locationFallback) ∧
    (analyzeLocation jsonParse lat lng key (.ok (some "")) = .ok locationFallback) ∧
    (∀ t : String, braceMatch t.data = none →
      analyzeLocation jsonParse lat lng key (.ok (some t)) = .ok locationFallback) ∧
    (∀ (t : String) (m : List Char), braceMatch t.data = some m →
      jsonParse (String.mk m) = none →
      analyzeLocation jsonParse lat lng key (.ok (some t)) = .ok locationFallback) := by
  refine ⟨?_, ?_, ?_, ?_, ?_⟩
  · intro e
    exact analyzeLocation_of_attempt_error _ _ _ _ _ hk e rfl
  · exact analyzeLocation_of_attempt_error _ _ _ _ _ hk _ rfl
  · exact analyzeLocation_of_attempt_error _ _ _ _ _ hk _ rfl
  · intro t hm
    by_cases ht : t = ""
    · subst ht
      exact analyzeLocation_of_attempt_error _ _ _ _ _ hk _ rfl
    · refine analyzeLocation_of_attempt_error _ _ _ _ _ hk
        { message := some "Failed to parse location JSON", status := none } ?_
      simp [analyzeAttempt, ht, hm]
  · intro t m hm hp
    by_cases ht : t = ""
    · subst ht
      exact analyzeLocation_of_attempt_error _ _ _ _ _ hk _ rfl
    · refine analyzeLocation_of_attempt_error _ _ _ _ _ hk
        { message := none, status := none } ?_
      simp [analyzeAttempt, ht, hm, hp]

/-- Witness for `c5_resolver_fallback`: a failing external call with a
nonempty key resolves to the fallback record. -/
theorem c5_resolver_fallback_witness :
    ("key" : String) ≠ "" ∧
    analyzeLocation (fun _ => none) "48.8584" "2.2945" "key"
        (.error { message := some "network down", status := none }) =
      .ok locationFallback :=
  ⟨by decide,
    (c5_resolver_fallback (fun _ => none) "48.8584" "2.2945" "key"
      (by decide)).1 { message := some "network down", status := none }⟩

/-- C10: an empty credential string is rejected before the `try` block, so
it is the one resolver failure that propagates to the caller; with any
nonempty credential the resolver always returns successfully (a real
context or the fallback). -/
theorem c10_empty_key_propagates
    (jsonParse : String → Option LocationContext) (lat lng : String)
    (svc : Except JsError (Option String)) :
    analyzeLocation jsonParse lat lng "" svc =
      .error { message := some "API Key is required", status := none } ∧
    (∀ key : String, key ≠ "" →
      ∃ ctx, analyzeLocation jsonParse lat lng key svc = .ok ctx) := by
  constructor
  · simp [analyzeLocation]
  · intro key hk
    cases h : analyzeAttempt jsonParse svc with
    | ok ctx => exact ⟨ctx, by simp [analyzeLocation, hk, h]⟩
    | error e => exact ⟨locationFallback, by simp [analyzeLocation, hk, h]⟩

/-- Witness for `c10_empty_key_propagates`: a nonempty key never yields a
propagated resolver error, even when the service call fails. -/
theorem c10_empty_key_propagates_witness :
    ("key" : String) ≠ "" ∧
    ∃ ctx, analyzeLocation (fun _ => none) "0" "0" "key"
        (.error { message := none, status := some 500 }) = .ok ctx :=
  ⟨by decide,
    (c10_empty_key_propagates (fun _ => none) "0" "0"
      (.error { message := none, status := some 500 })).2 "key" (by decide)⟩

/-- Transitivity of substring occurrence. -/
theorem substrOf_trans {p q s : String} (h1 : SubstrOf p q)
    (h2 : SubstrOf q s) : SubstrOf p s := by
  obtain ⟨x, y, hx⟩ := h1
  obtain ⟨a, b, ha⟩ := h2
  exact ⟨a ++ x, y ++ b, by rw [ha, hx]; simp [String.append_assoc]⟩

/-- Soundness of the executable scan: a successful `includesSub` yields an
explicit decomposition. -/
theorem includesSub_decomp {sub cs : List Char}
    (h : includesSub sub cs = true) : ∃ a b : List Char, cs = a ++ (sub ++ b) := by
  induction cs with
  | nil =>
    simp only [includesSub, List.isEmpty_iff] at h
    exact ⟨[], [], by simp [h]⟩
  | cons c rest ih =>
    rw [includesSub, Bool.or_eq_true] at h
    rcases h with h | h
    · obtain ⟨t, ht⟩ := List.isPrefixOf_iff_prefix.mp h
      exact ⟨[], t, by simp [← ht]⟩
    · obtain ⟨a, b, hab⟩ := ih h
      exact ⟨c :: a, b, by simp [hab]⟩

/-- Soundness of `includesStr` with respect to `SubstrOf`. -/
theorem substrOf_of_includes (s p : String) (h : includesStr s p = true) :
    SubstrOf p s := by
  obtain ⟨a, b, hab⟩ := includesSub_decomp (h : includesSub p.data s.data = true)
  refine ⟨⟨a⟩, ⟨b⟩, ?_⟩
  apply String.ext
  simpa [String.data_append] using hab

/-- A year string that `parseInt` accepts is nonempty. -/
theorem parseIntJS_ne_empty {y : String} {n : Int}
    (h : parseIntJS y = some n) : y ≠ "" := by
  intro he
  subst he
  exact Option.noConfusion ((rfl : parseIntJS "" = none) ▸ h)

/-- The composed prompt contains the time descriptor (at the Era/Year
context line). -/
theorem textPrompt_has_timeDescription (lat lng nm : String) (era : TimeEra)
    (w : String) (y c : Option String) (st v : String) :
    SubstrOf (timeDescription era y) (textPrompt lat lng nm era w y c st v) := by
  unfold textPrompt
  iterate 15 refine substrOf_appendRight _ ?_
  exact substrOf_appendLeft _ (substrOf_refl _)

/-- The composed prompt contains the historical-accuracy instruction (at
the first REQUIREMENTS item). -/
theorem textPrompt_has_historicInstruction (lat lng nm : String)
    (era : TimeEra) (w : String) (y c : Option String) (st v : String) :
    SubstrOf (historicInstruction lat lng y)
      (textPrompt lat lng nm era w y c st v) := by
  unfold textPrompt
  iterate 7 refine substrOf_appendRight _ ?_
  exact substrOf_appendLeft _ (substrOf_refl _)

/-- For a negatively-parsing year, the time descriptor contains
`<abs(year)> B.C.`. -/
theorem timeDescription_bc (era : TimeEra) (y : String) (n : Int)
    (hp : parseIntJS y = some n) (hn : n < 0) :
    SubstrOf (toString n.natAbs ++ " B.C.") (timeDescription era (some y)) := by
  have hy : y ≠ "" := parseIntJS_ne_empty hp
  refine substrOf_intro _ _ (eraString era ++ " (Specifically ") ")" ?_
  simp only [timeDescription, if_neg hy, hp, if_pos hn]
  rw [show (" B.C.)" : String) = " B.C." ++ ")" from by decide]
  simp only [String.append_assoc]

/-- For a non-negatively-parsing year, the time descriptor contains
`the year <year>`. -/
theorem timeDescription_ad (era : TimeEra) (y : String) (n : Int)
    (hp : parseIntJS y = some n) (hn : 0 ≤ n) :
    SubstrOf ("the year " ++ y) (timeDescription era (some y)) := by
  have hy : y ≠ "" := parseIntJS_ne_empty hp
  refine substrOf_intro _ _ (eraString era ++ " (Specifically ") ")" ?_
  simp only [timeDescription, if_neg hy, hp]
  rw [if_neg (by omega : ¬ n < 0)]
  rw [show (" (Specifically the year " : String) =
      " (Specifically " ++ "the year " from by decide]
  simp only [String.append_assoc]

set_option maxRecDepth 8192 in
/-- For a negatively-parsing year, the historical instruction carries all
three B.C.-specific clauses. -/
theorem historicInstruction_bc_clauses (lat lng y : String) (n : Int)
    (hp : parseIntJS y = some n) (hn : n < 0) :
    SubstrOf "MODERN CITIES DO NOT EXIST" (historicInstruction lat lng (some y)) ∧
    SubstrOf "NATURAL LANDSCAPE" (historicInstruction lat lng (some y)) ∧
    SubstrOf "Clothing MUST be primitive" (historicInstruction lat lng (some y)) := by
  have hy : y ≠ "" := parseIntJS_ne_empty hp
  simp only [historicInstruction, if_neg hy, hp, if_pos hn]
  refine ⟨?_, ?_, ?_⟩
  · iterate 6 refine substrOf_appendRight _ ?_
    exact substrOf_appendLeft _ (substrOf_of_includes _ _ (by decide))
  · iterate 6 refine substrOf_appendRight _ ?_
    exact substrOf_appendLeft _ (substrOf_of_includes _ _ (by decide))
  · exact substrOf_appendLeft _ (substrOf_of_includes _ _ (by decide))

set_option maxRecDepth 8192 in
/-- For a non-negatively-parsing year, the historical instruction states
the year and the modern-era accuracy clause. -/
theorem historicInstruction_ad_clauses (lat lng y : String) (n : Int)
    (hp : parseIntJS y = some n) (hn : 0 ≤ n) :
    SubstrOf ("HISTORICAL ACCURACY: The year is " ++ y ++ ".")
      (historicInstruction lat lng (some y)) ∧
    SubstrOf "Ensure architecture, street signs, technology, and background details match this year"
      (historicInstruction lat lng (some y)) := by
  have hy : y ≠ "" := parseIntJS_ne_empty hp
  simp only [historicInstruction, if_neg hy, hp]
  rw [if_neg (by omega : ¬ n < 0)]
  constructor
  · refine substrOf_intro _ _ "\n            "
      ("\n            - Ensure architecture, street signs, technology, and background details match this year.\n            - If Future, use grounded sci-fi aesthetics suitable for "
        ++ y ++ ".\n          ") ?_
    rw [show ("\n            HISTORICAL ACCURACY: The year is " : String) =
        "\n            " ++ "HISTORICAL ACCURACY: The year is " from by decide]
    rw [show (".\n            - Ensure architecture, street signs, technology, and background details match this year.\n            - If Future, use grounded sci-fi aesthetics suitable for " : String) =
        "." ++ "\n            - Ensure architecture, street signs, technology, and background details match this year.\n            - If Future, use grounded sci-fi aesthetics suitable for " from by decide]
    simp only [String.append_assoc]
  · iterate 2 refine substrOf_appendRight _ ?_
    exact substrOf_appendLeft _ (substrOf_of_includes _ _ (by decide))

/-- C1: for a year string parsing to a negative integer, the composed
prompt contains the literal descriptor `<abs(year)> B.C.` together with
the B.C.-specific clauses (no modern structures, natural landscape,
primitive clothing); for a year string parsing to a non-negative integer,
it instead contains `the year <year>` and the modern-era
historical-accuracy clauses. -/
theorem c1_prompt_era_clauses (lat lng nm : String) (era : TimeEra)
    (w y : String) (c : Option String) (st v : String) :
    (∀ n : Int, parseIntJS y = some n → n < 0 →
      SubstrOf (toString n.natAbs ++ " B.C.")
        (textPrompt lat lng nm era w (some y) c st v) ∧
      SubstrOf "MODERN CITIES DO NOT EXIST"
        (textPrompt lat lng nm era w (some y) c st v) ∧
      SubstrOf "NATURAL LANDSCAPE"
        (textPrompt lat lng nm era w (some y) c st v) ∧
      SubstrOf "Clothing MUST be primitive"
        (textPrompt lat lng nm era w (some y) c st v)) ∧
    (∀ n : Int, parseIntJS y = some n → 0 ≤ n →
      SubstrOf ("the year " ++ y)
        (textPrompt lat lng nm era w (some y) c st v) ∧
      SubstrOf ("HISTORICAL ACCURACY: The year is " ++ y ++ ".")
        (textPrompt lat lng nm era w (some y) c st v) ∧
      SubstrOf "Ensure architecture, street signs, technology, and background details match this year"
        (textPrompt lat lng nm era w (some y) c st v)) := by
  have htd := textPrompt_has_timeDescription lat lng nm era w (some y) c st v
  have hhi := textPrompt_has_historicInstruction lat lng nm era w (some y) c st v
  constructor
  · intro n hp hn
    obtain ⟨h1, h2, h3⟩ := historicInstruction_bc_clauses lat lng y n hp hn
    exact ⟨substrOf_trans (timeDescription_bc era y n hp hn) htd,
      substrOf_trans h1 hhi, substrOf_trans h2 hhi, substrOf_trans h3 hhi⟩
  · intro n hp hn
    obtain ⟨h1, h2⟩ := historicInstruction_ad_clauses lat lng y n hp hn
    exact ⟨substrOf_trans (timeDescription_ad era y n hp hn) htd,
      substrOf_trans h1 hhi, substrOf_trans h2 hhi⟩

/-- Witness for `c1_prompt_era_clauses`: the concrete years `"-500"` and
`"1950"` of the specification. -/
theorem c1_prompt_era_clauses_witness :
    parseIntJS "-500" = some (-500) ∧ ((-500 : Int) < 0) ∧
    parseIntJS "1950" = some 1950 ∧ ((0 : Int) ≤ 1950) ∧
    SubstrOf (toString (-500 : Int).natAbs ++ " B.C.")
      (textPrompt "29.97" "31.13" "Giza" TimeEra.past "Sunny"
        (some "-500") none "Realistic" "Wide Angle Shot (Establishing Context)") ∧
    SubstrOf ("the year " ++ "1950")
      (textPrompt "48.85" "2.29" "Paris" TimeEra.past "Cloudy"
        (some "1950") none "Realistic" "Medium Shot (Character Interaction)") :=
  ⟨by decide, by decide, by decide, by decide,
    ((c1_prompt_era_clauses "29.97" "31.13" "Giza" TimeEra.past "Sunny"
        "-500" none "Realistic" "Wide Angle Shot (Establishing Context)").1
      (-500) (by decide) (by decide)).1,
    ((c1_prompt_era_clauses "48.85" "2.29" "Paris" TimeEra.past "Cloudy"
        "1950" none "Realistic" "Medium Shot (Character Interaction)").2
      1950 (by decide) (by decide)).1⟩

/-! ## Retry-delay arithmetic -/

/-- Folding digits over an accumulator stays below `(acc+1) * 10^len`. -/
theorem digitsFold_lt (ds : List Char) (acc : Nat)
    (h : ∀ c ∈ ds, isDigitChar c = true) :
    List.foldl (fun acc c => acc * 10 + (c.toNat - 48)) acc ds <
      (acc + 1) * 10 ^ ds.length := by
  induction ds generalizing acc with
  | nil => simp
  | cons c ds ih =>
    have hc : isDigitChar c = true := h c (List.mem_cons_self c ds)
    have hd : c.toNat - 48 ≤ 9 := by
      simp only [isDigitChar, Bool.and_eq_true, decide_eq_true_eq] at hc
      omega
    have hrec := ih (acc * 10 + (c.toNat - 48))
      (fun x hx => h x (List.mem_cons_of_mem _ hx))
    have hstep : acc * 10 + (c.toNat - 48) + 1 ≤ (acc + 1) * 10 := by omega
    calc List.foldl (fun acc c => acc * 10 + (c.toNat - 48))
          (acc * 10 + (c.toNat - 48)) ds
        < (acc * 10 + (c.toNat - 48) + 1) * 10 ^ ds.length := hrec
      _ ≤ (acc + 1) * 10 * 10 ^ ds.length := Nat.mul_le_mul_right _ hstep
      _ = (acc + 1) * 10 ^ (ds.length + 1) := by rw [pow_succ]; ring

/-- A digit string denotes a value below `10^length`. -/
theorem digitsToNat_lt (ds : List Char)
    (h : ∀ c ∈ ds, isDigitChar c = true) :
    digitsToNat ds < 10 ^ ds.length := by
  simpa [digitsToNat] using digitsFold_lt ds 0 h

/-- The fractional part produced by `parseFloatDec` is a proper fraction:
its numerator is below `10 ^ fracDigits`. -/
theorem parseFloatDec_frac_lt {cs : List Char} {v : Nat × Nat × Nat}
    (h : parseFloatDec cs = some v) : v.2.1 < 10 ^ v.2.2 := by
  simp only [parseFloatDec] at h
  split at h
  · split at h
    · split at h
      · exact absurd h (by simp)
      · obtain rfl := Option.some.inj h
        exact digitsToNat_lt _ (fun c hc => List.mem_takeWhile_imp hc)
    · split at h
      · exact absurd h (by simp)
      · obtain rfl := Option.some.inj h
        simp
  · split at h
    · exact absurd h (by simp)
    · obtain rfl := Option.some.inj h
      simp

/-- `ceilDec` computes the true ceiling of the decimal value parsed by
`parseFloatDec`. -/
theorem ceilDec_eq_ceil (v : Nat × Nat × Nat) (h : v.2.1 < 10 ^ v.2.2) :
    (ceilDec v : ℤ) = ⌈decValue v⌉ := by
  obtain ⟨ip, fn, fd⟩ := v
  simp only at h
  by_cases h0 : fn = 0
  · subst h0
    simp [ceilDec, decValue]
  · have hpos : (0 : ℚ) < (fn : ℚ) / (10 : ℚ) ^ fd := by positivity
    have hlt : (fn : ℚ) / (10 : ℚ) ^ fd < 1 := by
      rw [div_lt_one (by positivity)]
      exact_mod_cast h
    have hone : ⌈(fn : ℚ) / (10 : ℚ) ^ fd⌉ = 1 := by
      rw [Int.ceil_eq_iff]
      exact ⟨by simpa using hpos, by exact_mod_cast hlt.le⟩
    simp only [ceilDec, decValue, if_neg h0]
    rw [show ((ip : ℚ) + (fn : ℚ) / (10 : ℚ) ^ fd) =
        (fn : ℚ) / (10 : ℚ) ^ fd + ((ip : ℤ) : ℚ) by push_cast; ring]
    rw [Int.ceil_add_int, hone]
    push_cast
    ring

/-! ## `makeRequest` behaviour lemmas -/

/-- A successful attempt returns immediately with no waits. -/
theorem makeRequest_ok {α : Type} (script : Nat → Except JsError α)
    (rc : Nat) (r : α) (h : script rc = .ok r) :
    makeRequest script rc = (.ok r, []) := by
  rw [makeRequest.eq_def, h]

/-- A failure not classified as rate-limited is rethrown immediately. -/
theorem makeRequest_not_rate_limited {α : Type}
    (script : Nat → Except JsError α) (rc : Nat) (e : JsError)
    (h : script rc = .error e) (hrl : isRateLimitErr e = false) :
    makeRequest script rc = (.error e, []) := by
  rw [makeRequest.eq_def, h]
  dsimp only
  rw [hrl]
  simp

/-- After two retries (`retryCount = 2`) any failure is rethrown. -/
theorem makeRequest_exhausted {α : Type} (script : Nat → Except JsError α)
    (rc : Nat) (e : JsError) (h : script rc = .error e) (hrc : 2 ≤ rc) :
    makeRequest script rc = (.error e, []) := by
  rw [makeRequest.eq_def, h]
  dsimp only
  split
  · rw [dif_neg (by omega : ¬ rc < 2)]
  · rfl

/-- A `NaN` delay (unparseable capture) never satisfies `delay < 70000`,
so the failure is rethrown. -/
theorem makeRequest_nan_delay {α : Type} (script : Nat → Except JsError α)
    (rc : Nat) (e : JsError) (h : script rc = .error e)
    (hd : computeDelay rc e.message = none) :
    makeRequest script rc = (.error e, []) := by
  rw [makeRequest.eq_def, h]
  dsimp only
  split
  · split
    · rw [hd]
    · rfl
  · rfl

/-- A computed delay of at least 70 seconds suppresses the retry and the
failure is rethrown. -/
theorem makeRequest_delay_too_large {α : Type}
    (script : Nat → Except JsError α) (rc : Nat) (e : JsError) (d : Nat)
    (h : script rc = .error e) (hd : computeDelay rc e.message = some d)
    (hge : ¬ d < 70000) :
    makeRequest script rc = (.error e, []) := by
  rw [makeRequest.eq_def, h]
  dsimp only
  split
  · split
    · rw [hd]
      dsimp only
      rw [if_neg hge]
    · rfl
  · rfl

/-- A rate-limited failure with retries left and an acceptable delay
recurses after recording the wait. -/
theorem makeRequest_retries {α : Type} (script : Nat → Except JsError α)
    (rc : Nat) (e : JsError) (d : Nat)
    (h : script rc = .error e) (hrl : isRateLimitErr e = true) (hrc : rc < 2)
    (hd : computeDelay rc e.message = some d) (hlt : d < 70000) :
    makeRequest script rc =
      ((makeRequest script (rc + 1)).1, d :: (makeRequest script (rc + 1)).2) := by
  rw [makeRequest.eq_def, h]
  dsimp only
  rw [hrl]
  rw [if_pos rfl, dif_pos hrc, hd]
  dsimp only
  rw [if_pos hlt]

/-- With `retryCount = 2` no wait is ever recorded. -/
theorem makeRequest_waits_two {α : Type} (script : Nat → Except JsError α) :
    (makeRequest script 2).2 = [] := by
  cases h : script 2 with
  | ok r => rw [makeRequest_ok script 2 r h]
  | error e => rw [makeRequest_exhausted script 2 e h (by omega)]

/-- Every wait recorded from `retryCount = 1` onwards corresponds to a
rate-limited error of the matching attempt. -/
theorem makeRequest_retry_attempts_one {α : Type}
    (script : Nat → Except JsError α) (j : Nat)
    (hj : j < (makeRequest script 1).2.length) :
    ∃ e, script (1 + j) = .error e ∧ isRateLimitErr e = true := by
  cases h : script 1 with
  | ok r => rw [makeRequest_ok script 1 r h] at hj; simp at hj
  | error e =>
    cases hrl : isRateLimitErr e with
    | false =>
      rw [makeRequest_not_rate_limited script 1 e h hrl] at hj; simp at hj
    | true =>
      cases hd : computeDelay 1 e.message with
      | none => rw [makeRequest_nan_delay script 1 e h hd] at hj; simp at hj
      | some d =>
        by_cases hlt : d < 70000
        · rw [makeRequest_retries script 1 e d h hrl (by omega) hd hlt,
            makeRequest_waits_two script] at hj
          simp at hj
          subst hj
          exact ⟨e, h, hrl⟩
        · rw [makeRequest_delay_too_large script 1 e d h hd hlt] at hj
          simp at hj

/-- At most one wait is recorded from `retryCount = 1`. -/
theorem makeRequest_waits_one_le {α : Type}
    (script : Nat → Except JsError α) :
    (makeRequest script 1).2.length ≤ 1 := by
  cases h : script 1 with
  | ok r => rw [makeRequest_ok script 1 r h]; simp
  | error e =>
    cases hrl : isRateLimitErr e with
    | false => rw [makeRequest_not_rate_limited script 1 e h hrl]; simp
    | true =>
      cases hd : computeDelay 1 e.message with
      | none => rw [makeRequest_nan_delay script 1 e h hd]; simp
      | some d =>
        by_cases hlt : d < 70000
        · rw [makeRequest_retries script 1 e d h hrl (by omega) hd hlt,
            makeRequest_waits_two script]
          simp
        · rw [makeRequest_delay_too_large script 1 e d h hd hlt]; simp

/-- C3: the generation client retries only failures its classifier marks
as rate-limited (message containing `429` or status 429), performs at most
2 retries (3 attempts) per invocation, and rethrows every non-rate-limit
failure immediately with no retry. -/
theorem c3_retry_classification :
    (∀ {α : Type} (script : Nat → Except JsError α) (k : Nat),
      k < (makeRequest script 0).2.length →
      ∃ e, script k = .error e ∧ isRateLimitErr e = true) ∧
    (∀ {α : Type} (script : Nat → Except JsError α),
      (makeRequest script 0).2.length ≤ 2) ∧
    (∀ {α : Type} (script : Nat → Except JsError α) (rc : Nat) (e : JsError),
      script rc = .error e → isRateLimitErr e = false →
      makeRequest script rc = (.error e, [])) := by
  refine ⟨?_, ?_, ?_⟩
  · intro α script k hk
    cases h : script 0 with
    | ok r => rw [makeRequest_ok script 0 r h] at hk; simp at hk
    | error e =>
      cases hrl : isRateLimitErr e with
      | false =>
        rw [makeRequest_not_rate_limited script 0 e h hrl] at hk; simp at hk
      | true =>
        cases hd : computeDelay 0 e.message with
        | none => rw [makeRequest_nan_delay script 0 e h hd] at hk; simp at hk
        | some d =>
          by_cases hlt : d < 70000
          · rw [makeRequest_retries script 0 e d h hrl (by omega) hd hlt] at hk
            cases k with
            | zero => exact ⟨e, h, hrl⟩
            | succ j =>
              simp only [List.length_cons, Nat.succ_lt_succ_iff] at hk
              obtain ⟨e', he', hrl'⟩ := makeRequest_retry_attempts_one script j hk
              exact ⟨e', by rw [Nat.add_comm 1 j] at he'; exact he', hrl'⟩
          · rw [makeRequest_delay_too_large script 0 e d h hd hlt] at hk
            simp at hk
  · intro α script
    cases h : script 0 with
    | ok r => rw [makeRequest_ok script 0 r h]; simp
    | error e =>
      cases hrl : isRateLimitErr e with
      | false => rw [makeRequest_not_rate_limited script 0 e h hrl]; simp
      | true =>
        cases hd : computeDelay 0 e.message with
        | none => rw [makeRequest_nan_delay script 0 e h hd]; simp
        | some d =>
          by_cases hlt : d < 70000
          · rw [makeRequest_retries script 0 e d h hrl (by omega) hd hlt]
            have := makeRequest_waits_one_le script
            simp only [List.length_cons, Nat.zero_add]
            omega
          · rw [makeRequest_delay_too_large script 0 e d h hd hlt]; simp
  · intro α script rc e h hrl
    exact makeRequest_not_rate_limited script rc e h hrl

/-- Witness for `c3_retry_classification`: a concrete non-rate-limit
failure propagates immediately with no recorded wait. -/
theorem c3_retry_classification_witness :
    ((fun _ => .error { message := some "No image generated", status := none } :
        Nat → Except JsError String) 0 =
      .error { message := some "No image generated", status := none }) ∧
    isRateLimitErr { message := some "No image generated", status := none } = false ∧
    makeRequest
        (fun _ => .error { message := some "No image generated", status := none } :
          Nat → Except JsError String) 0 =
      (.error { message := some "No image generated", status := none }, []) :=
  ⟨rfl, by decide,
    c3_retry_classification.2.2
      (fun _ => .error { message := some "No image generated", status := none }) 0
      { message := some "No image generated", status := none } rfl (by decide)⟩

/-- C2: before retry `k` (k = 0, 1) the delay is
`ceil(seconds) * 1000 + 2000` ms when the error message matches
`retry in <seconds>s` (with `ceil` the true ceiling of the parsed decimal),
and `3000 * 2^k` ms otherwise (3000 then 6000); a suggested `5s` yields
exactly 7000 ms; and a computed delay exceeding 70 seconds (e.g. from a
suggested `80s`) suppresses the automatic retry, propagating the failure
immediately. -/
theorem c2_retry_delay_policy :
    (∀ (k : Nat) (msg : String) (cap : List Char) (v : Nat × Nat × Nat),
      k < 2 → findRetryCapture msg.data = some cap →
      parseFloatDec cap = some v →
      computeDelay k (some msg) = some (ceilDec v * 1000 + 2000) ∧
      ((ceilDec v * 1000 + 2000 : Nat) : ℤ) = ⌈decValue v⌉ * 1000 + 2000) ∧
    (∀ (k : Nat) (msg : String), findRetryCapture msg.data = none →
      computeDelay k (some msg) = some (3000 * 2 ^ k)) ∧
    (computeDelay 0 none = some 3000 ∧ computeDelay 1 none = some 6000) ∧
    (computeDelay 0 (some "Rate limit hit, retry in 5s.") = some 7000) ∧
    (∀ {α : Type} (script : Nat → Except JsError α) (rc : Nat) (e : JsError)
        (d : Nat),
      script rc = .error e → computeDelay rc e.message = some d →
      70000 < d → makeRequest script rc = (.error e, [])) ∧
    (∀ {α : Type} (script : Nat → Except JsError α) (e : JsError),
      e.message = some "Quota exhausted, retry in 80s" → script 0 = .error e →
      computeDelay 0 e.message = some 82000 ∧
      makeRequest script 0 = (.error e, [])) := by
  refine ⟨?_, ?_, ⟨by decide, by decide⟩, by decide, ?_, ?_⟩
  · intro k msg cap v _ hfind hparse
    constructor
    · simp only [computeDelay, hfind, hparse]
    · have hfr := parseFloatDec_frac_lt hparse
      have := ceilDec_eq_ceil v hfr
      push_cast
      rw [this]
  · intro k msg hfind
    simp only [computeDelay, hfind]
  · intro α script rc e d h hd hgt
    exact makeRequest_delay_too_large script rc e d h hd (by omega)
  · intro α script e hmsg h
    have hd : computeDelay 0 e.message = some 82000 := by
      rw [hmsg]
      decide
    exact ⟨hd, makeRequest_delay_too_large script 0 e 82000 h hd (by omega)⟩

/-- Witness for `c2_retry_delay_policy`: the suggested-delay branch at the
concrete message `retry in 5s`, and the 80-second refusal. -/
theorem c2_retry_delay_policy_witness :
    (0 : Nat) < 2 ∧
    findRetryCapture ("Rate limit hit, retry in 5s.").data = some ['5'] ∧
    parseFloatDec ['5'] = some (5, 0, 0) ∧
    computeDelay 0 (some "Rate limit hit, retry in 5s.") =
      some (ceilDec (5, 0, 0) * 1000 + 2000) ∧
    makeRequest
        (fun _ => .error { message := some "Quota exhausted, retry in 80s",
                           status := some 429 } : Nat → Except JsError String) 0 =
      (.error { message := some "Quota exhausted, retry in 80s",
                status := some 429 }, []) :=
  ⟨by decide, by decide, by decide,
    ((c2_retry_delay_policy.1 0 "Rate limit hit, retry in 5s." ['5'] (5, 0, 0)
      (by decide) (by decide) (by decide)).1),
    ((c2_retry_delay_policy.2.2.2.2.2
      (fun _ => .error { message := some "Quota exhausted, retry in 80s",
                         status := some 429 })
      { message := some "Quota exhausted, retry in 80s", status := some 429 }
      rfl rfl).2)⟩

/-! ## Orchestrator generation loop -/

/-- C6: with a location selected and resolved, a run in which both
variations succeed issues exactly the two generation calls
`Wide Angle Shot (Establishing Context)` then
`Medium Shot (Character Interaction)`, accumulates the two images in call
order, and finishes with status `complete`. -/
theorem c6_two_shot_success (gen : String → Except JsError String)
    (s : AppState) (u1 u2 : String)
    (hl : s.selectedLocation.isSome = true) (hi : s.locationInfo.isSome = true)
    (h1 : gen "Wide Angle Shot (Establishing Context)" = .ok u1)
    (h2 : gen "Medium Shot (Character Interaction)" = .ok u2) :
    (handleGenerate gen s).2 =
      ["Wide Angle Shot (Establishing Context)",
       "Medium Shot (Character Interaction)"] ∧
    (handleGenerate gen s).1.status = AppStatus.complete ∧
    (handleGenerate gen s).1.generatedImages = [u1, u2] ∧
    (handleGenerate gen s).1.errorMessage = none := by
  obtain ⟨loc, hloc⟩ := Option.isSome_iff_exists.mp hl
  obtain ⟨info, hinfo⟩ := Option.isSome_iff_exists.mp hi
  have hloop : genLoop gen [] variationLabels =
      (["Wide Angle Shot (Establishing Context)",
        "Medium Shot (Character Interaction)"], [u1, u2], none) := by
    simp [genLoop, variationLabels, h1, h2]
  simp [handleGenerate, hloc, hinfo, hloop]

/-- Witness for `c6_two_shot_success` at a concrete state and scripted
generation outcomes. -/
theorem c6_two_shot_success_witness :
    (sampleReadyState.selectedLocation.isSome = true) ∧
    (sampleReadyState.locationInfo.isSome = true) ∧
    ((fun v => if v = "Wide Angle Shot (Establishing Context)"
        then (.ok "data:image/png;base64,AAA" : Except JsError String)
        else .ok "data:image/png;base64,BBB")
      "Wide Angle Shot (Establishing Context)" = .ok "data:image/png;base64,AAA") ∧
    (handleGenerate
        (fun v => if v = "Wide Angle Shot (Establishing Context)"
          then (.ok "data:image/png;base64,AAA" : Except JsError String)
          else .ok "data:image/png;base64,BBB")
        sampleReadyState).1.generatedImages =
      ["data:image/png;base64,AAA", "data:image/png;base64,BBB"] :=
  ⟨rfl, rfl, rfl,
    (c6_two_shot_success
      (fun v => if v = "Wide Angle Shot (Establishing Context)"
        then (.ok "data:image/png;base64,AAA" : Except JsError String)
        else .ok "data:image/png;base64,BBB")
      sampleReadyState "data:image/png;base64,AAA" "data:image/png;base64,BBB"
      rfl rfl rfl rfl).2.2.1⟩

/-- C7 (amended): when a variation's generation call fails terminally, the
orchestrator ends in status `error` with the message slot populated, the
images accumulated for prior variations are retained (not rolled back),
and the location state is untouched; the credential state is the one
further change, cleared exactly when the failure message classifies as an
invalid-credential error. -/
theorem c7_error_path_amended (gen : String → Except JsError String)
    (s : AppState) (e : JsError)
    (hl : s.selectedLocation.isSome = true)
    (hi : s.locationInfo.isSome = true) :
    (∀ u1, gen "Wide Angle Shot (Establishing Context)" = .ok u1 →
      gen "Medium Shot (Character Interaction)" = .error e →
      errorRunFrame gen s e [u1]) ∧
    (gen "Wide Angle Shot (Establishing Context)" = .error e →
      errorRunFrame gen s e []) := by
  obtain ⟨loc, hloc⟩ := Option.isSome_iff_exists.mp hl
  obtain ⟨info, hinfo⟩ := Option.isSome_iff_exists.mp hi
  constructor
  · intro u1 h1 h2
    have hloop : genLoop gen [] variationLabels =
        (["Wide Angle Shot (Establishing Context)",
          "Medium Shot (Character Interaction)"], [u1], some e) := by
      simp [genLoop, variationLabels, h1, h2]
    unfold errorRunFrame
    cases hq : isQuotaMsg (errMsgOf e) <;> cases hc : isCredMsg (errMsgOf e) <;>
      simp [handleGenerate, hloc, hinfo, hloop, handleError, clearApiKey, hq, hc]
  · intro h1
    have hloop : genLoop gen [] variationLabels =
        (["Wide Angle Shot (Establishing Context)"], [], some e) := by
      simp [genLoop, variationLabels, h1]
    unfold errorRunFrame
    cases hq : isQuotaMsg (errMsgOf e) <;> cases hc : isCredMsg (errMsgOf e) <;>
      simp [handleGenerate, hloc, hinfo, hloop, handleError, clearApiKey, hq, hc]

/-- Counterexample to C7 as stated: a terminal generation failure whose
message contains `400` drives the error path through `clearApiKey`, so the
run changes the stored credential state (apiKeyReady true → false) in
addition to status and the error message. -/
theorem c7_error_path_counterexample :
    sampleReadyState.apiKeyReady = true ∧
    (handleGenerate
        (fun _ => .error { message := some "Request failed with status 400",
                           status := some 400 })
        sampleReadyState).1.status = AppStatus.error ∧
    (handleGenerate
        (fun _ => .error { message := some "Request failed with status 400",
                           status := some 400 })
        sampleReadyState).1.apiKeyReady = false :=
  ⟨rfl, rfl, rfl⟩

/-- Witness for `c7_error_path_amended`: a concrete run whose second
variation fails with a non-credential message retains the first image and
leaves the credential untouched. -/
theorem c7_error_path_amended_witness :
    ((fun v => if v = "Wide Angle Shot (Establishing Context)"
        then (.ok "data:image/png;base64,AAA" : Except JsError String)
        else .error { message := some "No image generated", status := none })
      "Medium Shot (Character Interaction)" =
        .error { message := some "No image generated", status := none }) ∧
    errorRunFrame
      (fun v => if v = "Wide Angle Shot (Establishing Context)"
        then (.ok "data:image/png;base64,AAA" : Except JsError String)
        else .error { message := some "No image generated", status := none })
      sampleReadyState
      { message := some "No image generated", status := none }
      ["data:image/png;base64,AAA"] :=
  ⟨rfl,
    (c7_error_path_amended
      (fun v => if v = "Wide Angle Shot (Establishing Context)"
        then (.ok "data:image/png;base64,AAA" : Except JsError String)
        else .error { message := some "No image generated", status := none })
      sampleReadyState
      { message := some "No image generated", status := none } rfl rfl).1
      "data:image/png;base64,AAA" rfl rfl⟩

/-! ## JSON-span extraction -/

/-- `lastCloseSplit` fails exactly when the text has no `}`. -/
theorem lastCloseSplit_none_iff (cs : List Char) :
    lastCloseSplit cs = none ↔ braceClose ∉ cs := by
  induction cs with
  | nil => simp [lastCloseSplit]
  | cons c rest ih =>
    rw [lastCloseSplit]
    cases h : lastCloseSplit rest with
    | some p =>
      have hin : braceClose ∈ rest := by
        by_contra hn
        rw [← ih] at hn
        simp [h] at hn
      simp [List.mem_cons, hin]
    | none =>
      have hnr : braceClose ∉ rest := ih.mp h
      by_cases hc : c = braceClose
      · subst hc
        simp
      · rw [if_neg hc]
        have hcc : ¬ braceClose = c := fun hx => hc hx.symm
        simp [List.mem_cons, hnr, hcc]

/-- `lastCloseSplit` succeeds exactly on the prefix running through the
last `}` of the text. -/
theorem lastCloseSplit_some_iff (cs p : List Char) :
    lastCloseSplit cs = some p ↔
      ∃ q b, p = q ++ [braceClose] ∧ cs = p ++ b ∧ braceClose ∉ b := by
  induction cs generalizing p with
  | nil =>
    rw [lastCloseSplit]
    constructor
    · intro h
      exact absurd h (by simp)
    · rintro ⟨q, b, hp, hcs, hb⟩
      exfalso
      have := congrArg List.length hcs
      simp [hp] at this
      omega
  | cons c rest ih =>
    rw [lastCloseSplit]
    cases h : lastCloseSplit rest with
    | some p' =>
      dsimp only
      obtain ⟨q', b', hp', hrest, hb'⟩ := (ih p').mp h
      constructor
      · intro hsome
        obtain rfl := Option.some.inj hsome
        exact ⟨c :: q', b', by simp [hp'], by simp [hrest], hb'⟩
      · rintro ⟨q, b, hp, hcs, hb⟩
        subst hp
        cases q with
        | nil =>
          simp only [List.nil_append, List.cons_append] at hcs
          obtain ⟨rfl, rfl⟩ : c = braceClose ∧ rest = b :=
            ⟨(List.cons.inj hcs).1, by simpa using (List.cons.inj hcs).2⟩
          exact absurd h (by simp [(lastCloseSplit_none_iff rest).mpr hb])
        | cons q0 qrest =>
          simp only [List.cons_append] at hcs
          obtain ⟨rfl, hrest2⟩ := List.cons.inj hcs
          have h2 : lastCloseSplit rest = some (qrest ++ [braceClose]) :=
            (ih _).mpr ⟨qrest, b, rfl, by simpa using hrest2, hb⟩
          rw [h] at h2
          obtain rfl := Option.some.inj h2
          rfl
    | none =>
      dsimp only
      have hnr : braceClose ∉ rest := (lastCloseSplit_none_iff rest).mp h
      by_cases hc : c = braceClose
      · subst hc
        rw [if_pos rfl]
        constructor
        · intro hsome
          obtain rfl := Option.some.inj hsome
          exact ⟨[], rest, by simp, by simp, hnr⟩
        · rintro ⟨q, b, hp, hcs, hb⟩
          subst hp
          cases q with
          | nil =>
            simp only [List.nil_append, List.cons_append] at hcs
            obtain ⟨-, rfl⟩ := List.cons.inj hcs
            rfl
          | cons q0 qrest =>
            simp only [List.cons_append] at hcs
            obtain ⟨rfl, hrest2⟩ := List.cons.inj hcs
            exfalso
            apply hnr
            rw [hrest2]
            simp
      · rw [if_neg hc]
        constructor
        · intro hcontra
          exact absurd hcontra (by simp)
        · rintro ⟨q, b, hp, hcs, hb⟩
          exfalso
          subst hp
          cases q with
          | nil =>
            simp only [List.nil_append, List.cons_append] at hcs
            exact hc (List.cons.inj hcs).1
          | cons q0 qrest =>
            simp only [List.cons_append] at hcs
            obtain ⟨rfl, hrest2⟩ := List.cons.inj hcs
            apply hnr
            rw [hrest2]
            simp

/-- `braceMatch` succeeds exactly on the span running from the first `{`
of the text through the last `}` of the text: the match `m` starts with
`{`, ends with `}`, no `{` precedes it and no `}` follows it. -/
theorem braceMatch_some_iff (cs m : List Char) :
    braceMatch cs = some m ↔
      ∃ a mid b, cs = a ++ m ++ b ∧ braceOpen ∉ a ∧ braceClose ∉ b ∧
        m = braceOpen :: (mid ++ [braceClose]) := by
  induction cs with
  | nil =>
    rw [braceMatch]
    constructor
    · intro h
      exact absurd h (by simp)
    · rintro ⟨a, mid, b, hcs, ha, hb, hm⟩
      exfalso
      have := congrArg List.length hcs
      simp [hm] at this
      omega
  | cons c rest ih =>
    rw [braceMatch]
    by_cases hc : c = braceOpen
    · subst hc
      rw [if_pos rfl]
      cases h : lastCloseSplit rest with
      | some p =>
        dsimp only
        obtain ⟨q', b', hp', hrest, hb'⟩ := (lastCloseSplit_some_iff rest p).mp h
        constructor
        · intro hsome
          obtain rfl := Option.some.inj hsome
          refine ⟨[], q', b', ?_, by simp, hb', by simp [hp']⟩
          simp [hrest, hp']
        · rintro ⟨a, mid, b, hcs, ha, hb, hm⟩
          cases a with
          | nil =>
            subst hm
            simp only [List.nil_append, List.cons_append, List.append_assoc] at hcs
            obtain ⟨-, hrest2⟩ := List.cons.inj hcs
            have h2 : lastCloseSplit rest = some (mid ++ [braceClose]) :=
              (lastCloseSplit_some_iff rest _).mpr
                ⟨mid, b, rfl, by simpa using hrest2, hb⟩
            rw [h] at h2
            obtain rfl := Option.some.inj h2
            rfl
          | cons a0 arest =>
            exfalso
            simp only [List.cons_append] at hcs
            obtain ⟨rfl, -⟩ := List.cons.inj hcs
            exact ha (List.mem_cons_self _ _)
      | none =>
        dsimp only
        have hnr : braceClose ∉ rest := (lastCloseSplit_none_iff rest).mp h
        rw [ih]
        constructor
        · rintro ⟨a, mid, b, hcs, ha, hb, hm⟩
          exfalso
          apply hnr
          rw [hcs, hm]
          simp
        · rintro ⟨a, mid, b, hcs, ha, hb, hm⟩
          exfalso
          cases a with
          | nil =>
            subst hm
            simp only [List.nil_append, List.cons_append, List.append_assoc] at hcs
            obtain ⟨-, hrest2⟩ := List.cons.inj hcs
            apply hnr
            rw [hrest2]
            simp
          | cons a0 arest =>
            simp only [List.cons_append] at hcs
            obtain ⟨rfl, -⟩ := List.cons.inj hcs
            exact ha (List.mem_cons_self _ _)
    · rw [if_neg hc]
      rw [ih]
      constructor
      · rintro ⟨a, mid, b, hcs, ha, hb, hm⟩
        refine ⟨c :: a, mid, b, by simp [hcs], ?_, hb, hm⟩
        intro hmem
        rcases List.mem_cons.mp hmem with hx | hx
        · exact hc hx.symm
        · exact ha hx
      · rintro ⟨a, mid, b, hcs, ha, hb, hm⟩
        cases a with
        | nil =>
          exfalso
          subst hm
          simp only [List.nil_append, List.cons_append] at hcs
          exact hc (List.cons.inj hcs).1
        | cons a0 arest =>
          simp only [List.cons_append] at hcs
          obtain ⟨rfl, hrest2⟩ := List.cons.inj hcs
          refine ⟨arest, mid, b, hrest2, ?_, hb, hm⟩
          intro hmem
          exact ha (List.mem_cons_of_mem _ hmem)

/-- C8: the JSON object extracted by the resolver is exactly the span
from the first `{` of the response text through the last `}` (no `{`
before the match, no `}` after it), that span is what is handed to
`JSON.parse`, and when no such object exists the attempt fails with the
parse error — which the fallback policy then masks. -/
theorem c8_json_span_extraction :
    (∀ cs m : List Char, braceMatch cs = some m ↔
      ∃ a mid b, cs = a ++ m ++ b ∧ braceOpen ∉ a ∧ braceClose ∉ b ∧
        m = braceOpen :: (mid ++ [braceClose])) ∧
    (∀ (jsonParse : String → Option LocationContext) (t : String)
        (m : List Char), braceMatch t.data = some m →
      analyzeAttempt jsonParse (.ok (some t)) =
        (match jsonParse (String.mk m) with
         | some ctx => .ok ctx
         | none => .error { message := none, status := none })) ∧
    (∀ (jsonParse : String → Option LocationContext) (lat lng key t : String),
      key ≠ "" → t ≠ "" → braceMatch t.data = none →
      analyzeAttempt jsonParse (.ok (some t)) =
        .error { message := some "Failed to parse location JSON", status := none } ∧
      analyzeLocation jsonParse lat lng key (.ok (some t)) =
        .ok locationFallback) := by
  refine ⟨braceMatch_some_iff, ?_, ?_⟩
  · intro jsonParse t m hm
    have ht : t ≠ "" := by
      intro he
      subst he
      exact Option.noConfusion ((rfl : braceMatch ("" : String).data = none) ▸ hm)
    simp only [analyzeAttempt, if_neg ht, hm]
  · intro jsonParse lat lng key t hk ht hm
    have hatt : analyzeAttempt jsonParse (.ok (some t)) =
        .error { message := some "Failed to parse location JSON", status := none } := by
      simp only [analyzeAttempt, if_neg ht, hm]
    exact ⟨hatt, analyzeLocation_of_attempt_error _ _ _ _ _ hk _ hatt⟩

/-- Witness for `c8_json_span_extraction`: a response with prose but no
braces fails with the parse error and resolves to the fallback record. -/
theorem c8_json_span_extraction_witness :
    ("key" : String) ≠ "" ∧ ("no json here" : String) ≠ "" ∧
    braceMatch ("no json here" : String).data = none ∧
    analyzeLocation (fun _ => none) "0" "0" "key" (.ok (some "no json here")) =
      .ok locationFallback :=
  ⟨by decide, by decide, by decide,
    (c8_json_span_extraction.2.2 (fun _ => none) "0" "0" "key" "no json here"
      (by decide) (by decide) (by decide)).2⟩
